import Mathlib

/-!
Shallow embedding of the reconciliation engine of `aiplatform-util`
(package `pkg/sync`, files `push.go` and `pull.go`, plus the pieces of
`pkg/s3client` that shape the data).

Conventions of the embedding:
* timestamps are nanosecond counts (`Int`), mirroring Go `time.Time`
  compared with `Before`/`After` and shifted with `Add`;
* sizes are `Int` (Go `int64`);
* the Go map `map[string]s3client.S3Object` is an association list built
  by insert-or-replace, looked up with the Go zero value on a miss;
* effectful collaborators (`client.UploadFile`, `client.DeleteObject`,
  `client.DownloadFile`, `os.Remove`, `os.MkdirAll`, `filepath.Match`,
  `os.Stat`, `filepath.Walk`) are oracle fields of an environment record,
  and every invocation of a mutating collaborator is recorded in an
  effect trace so frame properties can be stated.
-/

namespace AiplatformSync

/-- Embedding of `s3client.S3Object` (`pkg/s3client`): key, size,
last-modified time and ETag of one remote object. -/
structure S3Object where
  key : String
  size : Int
  lastModified : Int
  etag : String
deriving DecidableEq, Repr

/-- The Go zero value of `s3client.S3Object`, produced by a map lookup
miss on `remoteFiles[s3Key]` in `Push`. -/
def zeroS3Object : S3Object := ⟨"", 0, 0, ""⟩

/-- One entry yielded by `filepath.Walk` over the local tree: the
forward-slash key relative to the mount path, the directory flag, and the
`os.FileInfo` size and modification time. -/
structure LocalFile where
  s3Key : String
  isDir : Bool
  size : Int
  modTime : Int
deriving DecidableEq, Repr

/-- Embedding of `sync.PushStats`. -/
structure PushStats where
  uploaded : Nat
  skipped : Nat
  deleted : Nat
  failed : Nat
deriving DecidableEq, Repr

/-- Embedding of `sync.PullStats`. -/
structure PullStats where
  downloaded : Nat
  skipped : Nat
  deleted : Nat
  failed : Nat
deriving DecidableEq, Repr

/-- Embedding of `sync.PushOptions`; the path-valued fields `Prefix` and
`MountPath` only select which tree is walked and are absorbed into the
environment, so the engine options are the three decision fields. -/
structure PushOptions where
  dryRun : Bool
  delete : Bool
  excludeGlobs : List String

/-- Embedding of `sync.PullOptions` (decision fields). -/
structure PullOptions where
  dryRun : Bool
  delete : Bool

/-- A mutating collaborator invocation, recorded in program order. -/
inductive Effect where
  | upload (key : String)
  | deleteRemote (key : String)
  | download (key : String)
  | removeLocal (key : String)
  | mkdirAll
deriving DecidableEq, Repr

/-- Go `strings.HasSuffix` / Lean `String.endsWith` in a form the
kernel evaluates: suffix test on the character lists. -/
def strEndsWith (s p : String) : Bool := p.data.isSuffixOf s.data

/-- Go `strings.HasPrefix` / Lean `String.startsWith` on character
lists. -/
def strStartsWith (s p : String) : Bool := p.data.isPrefixOf s.data

/-- Go `strings.TrimSuffix` of an `n`-character suffix: drop the last
`n` characters. -/
def strDropRight (s : String) (n : Nat) : String :=
  String.mk (s.data.take (s.data.length - n))

/-- Go map insert (assignment `m[k] = v`): replace the binding of `k`
when present, append it otherwise. -/
def mapInsert (m : List (String × S3Object)) (k : String) (v : S3Object) :
    List (String × S3Object) :=
  match m with
  | [] => [(k, v)]
  | (k₁, v₁) :: rest =>
      if k₁ = k then (k, v) :: rest else (k₁, v₁) :: mapInsert rest k v

/-- Go map lookup `m[k]`: the stored value, or the zero `S3Object` on a
miss. -/
def mapGet (m : List (String × S3Object)) (k : String) : S3Object :=
  match m with
  | [] => zeroS3Object
  | (k₁, v) :: rest => if k₁ = k then v else mapGet rest k

/-- The key set of the embedded Go map. -/
def targetKeys (m : List (String × S3Object)) : List String :=
  m.map Prod.fst

/-- `Push` lines 41-46: build `remoteFiles` from the listing, keeping
only keys without a trailing slash (non-directory objects). -/
def buildRemoteFiles (objs : List S3Object) : List (String × S3Object) :=
  objs.foldl
    (fun m obj =>
      if strEndsWith obj.key "/" then m else mapInsert m obj.key obj) []

/-- `needsUpload` (`push.go` lines 138-156): decide whether a local file
must be uploaded, with the human-readable reason.  The remote argument is
the (possibly zero) result of `remoteFiles[s3Key]`; one second of
tolerance (`1e9` nanoseconds) is applied to the strict `After`
comparison. -/
def needsUpload (localInfo : LocalFile) (remoteObj : S3Object) :
    Bool × String :=
  if remoteObj.key = "" then (true, "new file")
  else if localInfo.size ≠ remoteObj.size then (true, "size differs")
  else if decide (remoteObj.lastModified + 1000000000 < localInfo.modTime) then
    (true, "local is newer")
  else (false, "")

/-- Result of `os.Stat` on the local path a pull would write to:
found with metadata, not-found, or another stat error. -/
inductive StatRes where
  | found (info : LocalFile)
  | notExist
  | statFailed
deriving DecidableEq, Repr

/-- `needsDownload` (`pull.go` lines 130-151): decide whether a remote
object must be downloaded over the local path, with the reason. -/
def needsDownload (obj : S3Object) (st : StatRes) : Bool × String :=
  match st with
  | .notExist => (true, "new file")
  | .statFailed => (true, "stat error")
  | .found info =>
      if info.size ≠ obj.size then (true, "size differs")
      else if decide (info.modTime + 1000000000 < obj.lastModified) then
        (true, "remote is newer")
      else (false, "")

/-- `shouldExclude` (`push.go` lines 159-181): a path is excluded when
some pattern matches it by glob (`filepath.Match`, abstracted as the
oracle `glob`, `none` standing for `ErrBadPattern`), by directory
wildcard (pattern ending in the two characters slash-star, matching any
path that starts with the pattern minus that suffix followed by a
slash), or exactly.  Rules are tried in order and the first match
returns. -/
def shouldExclude (glob : String → String → Option Bool)
    (path : String) (patterns : List String) : Bool :=
  match patterns with
  | [] => false
  | pattern :: rest =>
      if glob pattern path = some true then true
      else if strEndsWith pattern "/*"
          && strStartsWith path (strDropRight pattern 2 ++ "/") then true
      else if path = pattern then true
      else shouldExclude glob path rest

/-- Result of `os.Stat` on the local root `prefixPath` of a push:
present, absent (`os.IsNotExist`), or another stat error. -/
inductive RootStat where
  | present
  | absent
  | statFailed
deriving DecidableEq, Repr

/-- The environment of one `Push` run: the remote listing, the local
root stat, the walk of the local tree (the `os.FileInfo` entries
`filepath.Walk` yields, already keyed by forward-slash path relative to
the mount path), the per-key success of `client.UploadFile` and
`client.DeleteObject`, and the `filepath.Match` collaborator. -/
structure PushEnv where
  remoteObjects : List S3Object
  rootStat : RootStat
  localWalk : List LocalFile
  uploadOk : String → Bool
  deleteOk : String → Bool
  glob : String → String → Option Bool

/-- One iteration of the walk closure of `Push` (lines 64-111): skip
directories, skip excluded keys, mark the key as seen, then upload when
`needsUpload` says so — counting an upload, a skip, or a failure, and
recording the `UploadFile` invocation when not in dry-run. -/
def pushStep (env : PushEnv) (opts : PushOptions)
    (rf : List (String × S3Object))
    (acc : PushStats × List String × List Effect) (f : LocalFile) :
    PushStats × List String × List Effect :=
  let stats := acc.1
  let localFiles := acc.2.1
  let effects := acc.2.2
  if f.isDir then acc
  else if shouldExclude env.glob f.s3Key opts.excludeGlobs then acc
  else
    let seen := localFiles ++ [f.s3Key]
    if (needsUpload f (mapGet rf f.s3Key)).1 then
      if opts.dryRun then (stats, seen, effects)
      else if env.uploadOk f.s3Key then
        ({stats with uploaded := stats.uploaded + 1}, seen,
          effects ++ [Effect.upload f.s3Key])
      else
        ({stats with failed := stats.failed + 1}, seen,
          effects ++ [Effect.upload f.s3Key])
    else
      if opts.dryRun then (stats, seen, effects)
      else ({stats with skipped := stats.skipped + 1}, seen, effects)

/-- One iteration of the deletion loop of `Push` (lines 119-131): a
remote key not marked in `localFiles` is deleted (counting a deletion or
a failure) unless in dry-run. -/
def pushDeleteStep (opts : PushOptions) (deleteOk : String → Bool)
    (localFiles : List String) (acc : PushStats × List Effect)
    (key : String) : PushStats × List Effect :=
  let stats := acc.1
  let effects := acc.2
  if localFiles.contains key then acc
  else if opts.dryRun then acc
  else if deleteOk key then
    ({stats with deleted := stats.deleted + 1},
      effects ++ [Effect.deleteRemote key])
  else
    ({stats with failed := stats.failed + 1},
      effects ++ [Effect.deleteRemote key])

/-- The deletion sweep of `Push` (lines 118-132), over the keys of
`remoteFiles`. -/
def pushDeleteSweep (opts : PushOptions) (deleteOk : String → Bool)
    (rf : List (String × S3Object)) (localFiles : List String)
    (start : PushStats × List Effect) : PushStats × List Effect :=
  (targetKeys rf).foldl (pushDeleteStep opts deleteOk localFiles) start

/-- `sync.Push` (`push.go` lines 31-135) as a pure function of its
environment: the run-level outcome (statistics or error) together with
the trace of mutating collaborator invocations.  A missing local root
returns zero statistics at once unless deletion is requested, in which
case only the deletion sweep runs, over an empty seen set. -/
def push (env : PushEnv) (opts : PushOptions) :
    Except String PushStats × List Effect :=
  let rf := buildRemoteFiles env.remoteObjects
  match env.rootStat with
  | .statFailed => (Except.error "failed to stat prefix path", [])
  | .absent =>
      if opts.delete then
        let swept := pushDeleteSweep opts env.deleteOk rf [] (⟨0, 0, 0, 0⟩, [])
        (Except.ok swept.1, swept.2)
      else (Except.ok ⟨0, 0, 0, 0⟩, [])
  | .present =>
      let walked := env.localWalk.foldl (pushStep env opts rf)
        (⟨0, 0, 0, 0⟩, [], [])
      if opts.delete then
        let swept := pushDeleteSweep opts env.deleteOk rf walked.2.1
          (walked.1, walked.2.2)
        (Except.ok swept.1, swept.2)
      else (Except.ok walked.1, walked.2.2)

/-- Result of `filepath.Walk` over the local root during a pull deletion
sweep: the entries, a tolerated not-found root (`os.IsNotExist`), or
another walk error. -/
inductive WalkRes where
  | walked (files : List LocalFile)
  | notExist
  | walkFailed

/-- The environment of one `Pull` run: the remote listing, the local
stat of each would-be target path (keyed by remote key), the per-key
success of `client.DownloadFile` and `os.Remove`, the outcome of
`os.MkdirAll` on the mount path, and the local walk used by the deletion
sweep. -/
structure PullEnv where
  objects : List S3Object
  stat : String → StatRes
  downloadOk : String → Bool
  removeOk : String → Bool
  mkdirOk : Bool
  walk : WalkRes

/-- One iteration of the download loop of `Pull` (lines 47-73): skip
directory keys, then download when `needsDownload` says so — counting a
download, a skip, or a failure, and recording the `DownloadFile`
invocation when not in dry-run. -/
def pullStep (env : PullEnv) (opts : PullOptions)
    (acc : PullStats × List Effect) (obj : S3Object) :
    PullStats × List Effect :=
  let stats := acc.1
  let effects := acc.2
  if strEndsWith obj.key "/" then acc
  else if (needsDownload obj (env.stat obj.key)).1 then
    if opts.dryRun then acc
    else if env.downloadOk obj.key then
      ({stats with downloaded := stats.downloaded + 1},
        effects ++ [Effect.download obj.key])
    else
      ({stats with failed := stats.failed + 1},
        effects ++ [Effect.download obj.key])
  else
    if opts.dryRun then acc
    else ({stats with skipped := stats.skipped + 1}, effects)

/-- The non-directory remote key set of `Pull` (lines 78-83). -/
def remoteKeySet (objs : List S3Object) : List String :=
  objs.filterMap (fun obj =>
    if strEndsWith obj.key "/" then none else some obj.key)

/-- One iteration of the deletion walk of `Pull` (lines 87-120): a local
non-directory file whose key is not remote is removed (counting a
deletion or a failure) unless in dry-run. -/
def pullDeleteStep (opts : PullOptions) (removeOk : String → Bool)
    (remoteKeys : List String) (acc : PullStats × List Effect)
    (f : LocalFile) : PullStats × List Effect :=
  let stats := acc.1
  let effects := acc.2
  if f.isDir then acc
  else if remoteKeys.contains f.s3Key then acc
  else if opts.dryRun then acc
  else if removeOk f.s3Key then
    ({stats with deleted := stats.deleted + 1},
      effects ++ [Effect.removeLocal f.s3Key])
  else
    ({stats with failed := stats.failed + 1},
      effects ++ [Effect.removeLocal f.s3Key])

/-- The `os.MkdirAll` invocation on the mount path (`Pull` lines
40-44), made only when not in dry-run. -/
def pullInitEffects (opts : PullOptions) : List Effect :=
  if opts.dryRun then [] else [Effect.mkdirAll]

/-- `sync.Pull` (`pull.go` lines 30-127) as a pure function of its
environment.  When not in dry-run the mount path is created first (a
failure there is a run-level error); then each listed object is
downloaded or skipped; then, when deletion is requested, the local tree
is walked and stale files are removed, a not-found root being tolerated
and any other walk error being a run-level error. -/
def pull (env : PullEnv) (opts : PullOptions) :
    Except String PullStats × List Effect :=
  if opts.dryRun = false ∧ env.mkdirOk = false then
    (Except.error "failed to create mount path", [Effect.mkdirAll])
  else
    let downloaded := env.objects.foldl (pullStep env opts)
      (⟨0, 0, 0, 0⟩, pullInitEffects opts)
    if opts.delete then
      match env.walk with
      | .walkFailed => (Except.error "failed to walk directory", downloaded.2)
      | .notExist => (Except.ok downloaded.1, downloaded.2)
      | .walked files =>
          let swept := files.foldl
            (pullDeleteStep opts env.removeOk (remoteKeySet env.objects))
            downloaded
          (Except.ok swept.1, swept.2)
    else (Except.ok downloaded.1, downloaded.2)

/-- A walk entry enters the considered source set when it is not a
directory and not excluded (`Push` lines 70-86). -/
def pushConsidered (glob : String → String → Option Bool)
    (excl : List String) (f : LocalFile) : Bool :=
  !f.isDir && !shouldExclude glob f.s3Key excl

/-- A considered entry is transferred when `needsUpload` says so against
the `remoteFiles` lookup of its key. -/
def pushNeeds (rf : List (String × S3Object)) (f : LocalFile) : Bool :=
  (needsUpload f (mapGet rf f.s3Key)).1

/-- The keys marked `localFiles[s3Key] = true` during the walk, in walk
order. -/
def pushObserved (glob : String → String → Option Bool)
    (excl : List String) (walk : List LocalFile) : List String :=
  (walk.filter (pushConsidered glob excl)).map LocalFile.s3Key

/-- The walk entries whose upload is attempted (considered and needing
upload), in walk order. -/
def pushUploadList (glob : String → String → Option Bool)
    (excl : List String) (rf : List (String × S3Object))
    (walk : List LocalFile) : List LocalFile :=
  walk.filter (fun f => pushConsidered glob excl f && pushNeeds rf f)

/-- The plan view of the push diff: the considered entries needing
transfer, each with its `needsUpload` reason. -/
def pushToTransfer (glob : String → String → Option Bool)
    (excl : List String) (rf : List (String × S3Object))
    (walk : List LocalFile) : List (String × String) :=
  (pushUploadList glob excl rf walk).map
    (fun f => (f.s3Key, (needsUpload f (mapGet rf f.s3Key)).2))

/-- The plan view of the push diff: the considered entries that are up
to date. -/
def pushToSkip (glob : String → String → Option Bool)
    (excl : List String) (rf : List (String × S3Object))
    (walk : List LocalFile) : List String :=
  (walk.filter (fun f => pushConsidered glob excl f && !pushNeeds rf f)).map
    LocalFile.s3Key

/-- Componentwise sum of push statistics. -/
def statsAdd (a b : PushStats) : PushStats :=
  ⟨a.uploaded + b.uploaded, a.skipped + b.skipped,
    a.deleted + b.deleted, a.failed + b.failed⟩

/-- The statistics contributed by the walk loop of `Push`: zero in
dry-run, otherwise one upload, skip or failure per considered entry. -/
def pushWalkStats (env : PushEnv) (opts : PushOptions)
    (rf : List (String × S3Object)) (walk : List LocalFile) : PushStats :=
  if opts.dryRun then ⟨0, 0, 0, 0⟩
  else
    ⟨((pushUploadList env.glob opts.excludeGlobs rf walk).filter
        (fun f => env.uploadOk f.s3Key)).length,
      (pushToSkip env.glob opts.excludeGlobs rf walk).length,
      0,
      ((pushUploadList env.glob opts.excludeGlobs rf walk).filter
        (fun f => !env.uploadOk f.s3Key)).length⟩

/-- The `UploadFile` invocations of the walk loop: none in dry-run,
otherwise one per attempted entry, in walk order. -/
def pushUploadEffects (env : PushEnv) (opts : PushOptions)
    (rf : List (String × S3Object)) (walk : List LocalFile) :
    List Effect :=
  if opts.dryRun then []
  else (pushUploadList env.glob opts.excludeGlobs rf walk).map
    (fun f => Effect.upload f.s3Key)

/-- The remote keys the deletion sweep acts on: those not marked as seen
locally. -/
def deleteCandidates (keys : List String) (localFiles : List String) :
    List String :=
  keys.filter (fun k => !localFiles.contains k)

/-- The statistics contributed by the deletion sweep of `Push`. -/
def pushDeleteStats (opts : PushOptions) (deleteOk : String → Bool)
    (keys : List String) (localFiles : List String) : PushStats :=
  if opts.dryRun then ⟨0, 0, 0, 0⟩
  else
    ⟨0, 0,
      ((deleteCandidates keys localFiles).filter (fun k => deleteOk k)).length,
      ((deleteCandidates keys localFiles).filter (fun k => !deleteOk k)).length⟩

/-- The `DeleteObject` invocations of the deletion sweep. -/
def pushDeleteEffects (opts : PushOptions) (keys : List String)
    (localFiles : List String) : List Effect :=
  if opts.dryRun then []
  else (deleteCandidates keys localFiles).map Effect.deleteRemote

/-- A listed object enters the pull loop when its key has no trailing
slash (`Pull` lines 49-51). -/
def pullConsidered (obj : S3Object) : Bool :=
  !strEndsWith obj.key "/"

/-- A considered object is downloaded when `needsDownload` says so
against the local stat of its target path. -/
def pullNeeds (env : PullEnv) (obj : S3Object) : Bool :=
  (needsDownload obj (env.stat obj.key)).1

/-- The objects whose download is attempted, in listing order. -/
def pullDownloadList (env : PullEnv) (objs : List S3Object) :
    List S3Object :=
  objs.filter (fun o => pullConsidered o && pullNeeds env o)

/-- Componentwise sum of pull statistics. -/
def pullStatsAdd (a b : PullStats) : PullStats :=
  ⟨a.downloaded + b.downloaded, a.skipped + b.skipped,
    a.deleted + b.deleted, a.failed + b.failed⟩

/-- The statistics contributed by the download loop of `Pull`. -/
def pullWalkStats (env : PullEnv) (opts : PullOptions)
    (objs : List S3Object) : PullStats :=
  if opts.dryRun then ⟨0, 0, 0, 0⟩
  else
    ⟨((pullDownloadList env objs).filter
        (fun o => env.downloadOk o.key)).length,
      (objs.filter (fun o => pullConsidered o && !pullNeeds env o)).length,
      0,
      ((pullDownloadList env objs).filter
        (fun o => !env.downloadOk o.key)).length⟩

/-- The `DownloadFile` invocations of the download loop. -/
def pullDownloadEffects (env : PullEnv) (opts : PullOptions)
    (objs : List S3Object) : List Effect :=
  if opts.dryRun then []
  else (pullDownloadList env objs).map (fun o => Effect.download o.key)

/-- The local files the pull deletion walk removes: non-directories
whose key is not remote. -/
def pullDeleteCandidates (remoteKeys : List String)
    (files : List LocalFile) : List LocalFile :=
  files.filter (fun f => !f.isDir && !remoteKeys.contains f.s3Key)

/-- The statistics contributed by the deletion walk of `Pull`. -/
def pullDeleteStats (opts : PullOptions) (removeOk : String → Bool)
    (remoteKeys : List String) (files : List LocalFile) : PullStats :=
  if opts.dryRun then ⟨0, 0, 0, 0⟩
  else
    ⟨0, 0,
      ((pullDeleteCandidates remoteKeys files).filter
        (fun f => removeOk f.s3Key)).length,
      ((pullDeleteCandidates remoteKeys files).filter
        (fun f => !removeOk f.s3Key)).length⟩

/-- The `os.Remove` invocations of the deletion walk. -/
def pullDeleteEffects (opts : PullOptions) (remoteKeys : List String)
    (files : List LocalFile) : List Effect :=
  if opts.dryRun then []
  else (pullDeleteCandidates remoteKeys files).map
    (fun f => Effect.removeLocal f.s3Key)

theorem statsAdd_zero (a : PushStats) : statsAdd a ⟨0, 0, 0, 0⟩ = a := by
  cases a
  simp [statsAdd]

theorem pullStatsAdd_zero (a : PullStats) :
    pullStatsAdd a ⟨0, 0, 0, 0⟩ = a := by
  cases a
  simp [pullStatsAdd]

/-- Characterization of the walk loop of `Push`: folding `pushStep` over
the walk adds the walk statistics, appends the observed keys, and
appends the upload invocations. -/
theorem pushStep_foldl (env : PushEnv) (opts : PushOptions)
    (rf : List (String × S3Object)) (walk : List LocalFile) :
    ∀ acc : PushStats × List String × List Effect,
    walk.foldl (pushStep env opts rf) acc =
      (statsAdd acc.1 (pushWalkStats env opts rf walk),
        acc.2.1 ++ pushObserved env.glob opts.excludeGlobs walk,
        acc.2.2 ++ pushUploadEffects env opts rf walk) := by
  induction walk with
  | nil =>
      intro acc
      simp [pushWalkStats, pushObserved, pushUploadList, pushToSkip,
        pushUploadEffects, statsAdd_zero]
  | cons f rest ih =>
      intro acc
      rw [List.foldl_cons, ih]
      by_cases hdir : f.isDir = true
      · simp [pushStep, hdir, pushWalkStats, pushObserved, pushUploadList,
          pushToSkip, pushUploadEffects, pushConsidered, List.filter_cons]
      · by_cases hexc :
            shouldExclude env.glob f.s3Key opts.excludeGlobs = true
        · simp [pushStep, hdir, hexc, pushWalkStats, pushObserved,
            pushUploadList, pushToSkip, pushUploadEffects, pushConsidered,
            List.filter_cons]
        · by_cases hneed : (needsUpload f (mapGet rf f.s3Key)).1 = true
          · by_cases hdry : opts.dryRun = true
            · simp [pushStep, hdir, hexc, hneed, hdry, pushWalkStats,
                pushObserved, pushUploadList, pushToSkip, pushUploadEffects,
                pushConsidered, pushNeeds, List.filter_cons,
                List.append_assoc]
            · by_cases hok : env.uploadOk f.s3Key = true
              · simp [pushStep, hdir, hexc, hneed, hdry, hok, pushWalkStats,
                  pushObserved, pushUploadList, pushToSkip,
                  pushUploadEffects, pushConsidered, pushNeeds, statsAdd,
                  List.filter_cons, List.append_assoc]
                omega
              · simp [pushStep, hdir, hexc, hneed, hdry, hok, pushWalkStats,
                  pushObserved, pushUploadList, pushToSkip,
                  pushUploadEffects, pushConsidered, pushNeeds, statsAdd,
                  List.filter_cons, List.append_assoc]
                omega
          · by_cases hdry : opts.dryRun = true
            · simp [pushStep, hdir, hexc, hneed, hdry, pushWalkStats,
                pushObserved, pushUploadList, pushToSkip, pushUploadEffects,
                pushConsidered, pushNeeds, List.filter_cons,
                List.append_assoc]
            · simp [pushStep, hdir, hexc, hneed, hdry, pushWalkStats,
                pushObserved, pushUploadList, pushToSkip, pushUploadEffects,
                pushConsidered, pushNeeds, statsAdd, List.filter_cons,
                List.append_assoc]
              omega

/-- Characterization of the deletion loop of `Push` over an arbitrary
key list. -/
theorem pushDeleteStep_foldl (opts : PushOptions) (deleteOk : String → Bool)
    (localFiles : List String) (keys : List String) :
    ∀ acc : PushStats × List Effect,
    keys.foldl (pushDeleteStep opts deleteOk localFiles) acc =
      (statsAdd acc.1 (pushDeleteStats opts deleteOk keys localFiles),
        acc.2 ++ pushDeleteEffects opts keys localFiles) := by
  induction keys with
  | nil =>
      intro acc
      simp [pushDeleteStats, pushDeleteEffects, deleteCandidates,
        statsAdd_zero]
  | cons k rest ih =>
      intro acc
      rw [List.foldl_cons, ih]
      by_cases hmem : k ∈ localFiles
      · simp [pushDeleteStep, hmem, pushDeleteStats, pushDeleteEffects,
          deleteCandidates, List.filter_cons]
      · by_cases hdry : opts.dryRun = true
        · simp [pushDeleteStep, hmem, hdry, pushDeleteStats,
            pushDeleteEffects, deleteCandidates, List.filter_cons]
        · by_cases hok : deleteOk k = true
          · simp [pushDeleteStep, hmem, hdry, hok, pushDeleteStats,
              pushDeleteEffects, deleteCandidates, statsAdd,
              List.filter_cons, List.append_assoc]
            omega
          · simp [pushDeleteStep, hmem, hdry, hok, pushDeleteStats,
              pushDeleteEffects, deleteCandidates, statsAdd,
              List.filter_cons, List.append_assoc]
            omega

/-- The deletion sweep in terms of the key list of `remoteFiles`. -/
theorem pushDeleteSweep_spec (opts : PushOptions) (deleteOk : String → Bool)
    (rf : List (String × S3Object)) (localFiles : List String)
    (acc : PushStats × List Effect) :
    pushDeleteSweep opts deleteOk rf localFiles acc =
      (statsAdd acc.1
          (pushDeleteStats opts deleteOk (targetKeys rf) localFiles),
        acc.2 ++ pushDeleteEffects opts (targetKeys rf) localFiles) :=
  pushDeleteStep_foldl opts deleteOk localFiles (targetKeys rf) acc

/-- Characterization of the download loop of `Pull`. -/
theorem pullStep_foldl (env : PullEnv) (opts : PullOptions)
    (objs : List S3Object) :
    ∀ acc : PullStats × List Effect,
    objs.foldl (pullStep env opts) acc =
      (pullStatsAdd acc.1 (pullWalkStats env opts objs),
        acc.2 ++ pullDownloadEffects env opts objs) := by
  induction objs with
  | nil =>
      intro acc
      simp [pullWalkStats, pullDownloadEffects, pullDownloadList,
        pullStatsAdd_zero]
  | cons o rest ih =>
      intro acc
      rw [List.foldl_cons, ih]
      by_cases hslash : strEndsWith o.key "/" = true
      · simp [pullStep, hslash, pullWalkStats, pullDownloadEffects,
          pullDownloadList, pullConsidered, List.filter_cons]
      · by_cases hneed : (needsDownload o (env.stat o.key)).1 = true
        · by_cases hdry : opts.dryRun = true
          · simp [pullStep, hslash, hneed, hdry, pullWalkStats,
              pullDownloadEffects, pullDownloadList, pullConsidered,
              pullNeeds, List.filter_cons, List.append_assoc]
          · by_cases hok : env.downloadOk o.key = true
            · simp [pullStep, hslash, hneed, hdry, hok, pullWalkStats,
                pullDownloadEffects, pullDownloadList, pullConsidered,
                pullNeeds, pullStatsAdd, List.filter_cons,
                List.append_assoc]
              omega
            · simp [pullStep, hslash, hneed, hdry, hok, pullWalkStats,
                pullDownloadEffects, pullDownloadList, pullConsidered,
                pullNeeds, pullStatsAdd, List.filter_cons,
                List.append_assoc]
              omega
        · by_cases hdry : opts.dryRun = true
          · simp [pullStep, hslash, hneed, hdry, pullWalkStats,
              pullDownloadEffects, pullDownloadList, pullConsidered,
              pullNeeds, List.filter_cons, List.append_assoc]
          · simp [pullStep, hslash, hneed, hdry, pullWalkStats,
              pullDownloadEffects, pullDownloadList, pullConsidered,
              pullNeeds, pullStatsAdd, List.filter_cons, List.append_assoc]
            omega

/-- Characterization of the deletion walk of `Pull`. -/
theorem pullDeleteStep_foldl (opts : PullOptions) (removeOk : String → Bool)
    (remoteKeys : List String) (files : List LocalFile) :
    ∀ acc : PullStats × List Effect,
    files.foldl (pullDeleteStep opts removeOk remoteKeys) acc =
      (pullStatsAdd acc.1
          (pullDeleteStats opts removeOk remoteKeys files),
        acc.2 ++ pullDeleteEffects opts remoteKeys files) := by
  induction files with
  | nil =>
      intro acc
      simp [pullDeleteStats, pullDeleteEffects, pullDeleteCandidates,
        pullStatsAdd_zero]
  | cons f rest ih =>
      intro acc
      rw [List.foldl_cons, ih]
      by_cases hdir : f.isDir = true
      · simp [pullDeleteStep, hdir, pullDeleteStats, pullDeleteEffects,
          pullDeleteCandidates, List.filter_cons]
      · by_cases hmem : f.s3Key ∈ remoteKeys
        · simp [pullDeleteStep, hdir, hmem, pullDeleteStats,
            pullDeleteEffects, pullDeleteCandidates, List.filter_cons]
        · by_cases hdry : opts.dryRun = true
          · simp [pullDeleteStep, hdir, hmem, hdry, pullDeleteStats,
              pullDeleteEffects, pullDeleteCandidates, List.filter_cons]
          · by_cases hok : removeOk f.s3Key = true
            · simp [pullDeleteStep, hdir, hmem, hdry, hok, pullDeleteStats,
                pullDeleteEffects, pullDeleteCandidates, pullStatsAdd,
                List.filter_cons, List.append_assoc]
              omega
            · simp [pullDeleteStep, hdir, hmem, hdry, hok, pullDeleteStats,
                pullDeleteEffects, pullDeleteCandidates, pullStatsAdd,
                List.filter_cons, List.append_assoc]
              omega

theorem statsAdd_zero_left (a : PushStats) : statsAdd ⟨0, 0, 0, 0⟩ a = a := by
  cases a
  simp [statsAdd]

theorem pullStatsAdd_zero_left (a : PullStats) :
    pullStatsAdd ⟨0, 0, 0, 0⟩ a = a := by
  cases a
  simp [pullStatsAdd]

/-- `Push` with an existing local root and deletion requested: walk
statistics plus sweep statistics over the observed keys, and the upload
trace followed by the deletion trace. -/
theorem push_spec_present_delete (env : PushEnv) (opts : PushOptions)
    (hroot : env.rootStat = RootStat.present) (hdel : opts.delete = true) :
    push env opts =
      (Except.ok (statsAdd
          (pushWalkStats env opts (buildRemoteFiles env.remoteObjects)
            env.localWalk)
          (pushDeleteStats opts env.deleteOk
            (targetKeys (buildRemoteFiles env.remoteObjects))
            (pushObserved env.glob opts.excludeGlobs env.localWalk))),
        pushUploadEffects env opts (buildRemoteFiles env.remoteObjects)
            env.localWalk ++
          pushDeleteEffects opts
            (targetKeys (buildRemoteFiles env.remoteObjects))
            (pushObserved env.glob opts.excludeGlobs env.localWalk)) := by
  unfold push
  simp only [hroot, hdel, pushStep_foldl, pushDeleteSweep_spec, if_true,
    List.nil_append, statsAdd_zero_left]

/-- `Push` with an existing local root and no deletion: the walk
statistics and the upload trace only. -/
theorem push_spec_present_noDelete (env : PushEnv) (opts : PushOptions)
    (hroot : env.rootStat = RootStat.present) (hdel : opts.delete = false) :
    push env opts =
      (Except.ok (pushWalkStats env opts
          (buildRemoteFiles env.remoteObjects) env.localWalk),
        pushUploadEffects env opts (buildRemoteFiles env.remoteObjects)
          env.localWalk) := by
  unfold push
  simp only [hroot, hdel, pushStep_foldl, Bool.false_eq_true, if_false,
    List.nil_append, statsAdd_zero_left]

/-- `Push` with a missing local root and deletion requested: only the
sweep runs, over an empty seen set. -/
theorem push_spec_absent_delete (env : PushEnv) (opts : PushOptions)
    (hroot : env.rootStat = RootStat.absent) (hdel : opts.delete = true) :
    push env opts =
      (Except.ok (pushDeleteStats opts env.deleteOk
          (targetKeys (buildRemoteFiles env.remoteObjects)) []),
        pushDeleteEffects opts
          (targetKeys (buildRemoteFiles env.remoteObjects)) []) := by
  unfold push
  simp only [hroot, hdel, pushDeleteSweep_spec, if_true, List.nil_append,
    statsAdd_zero_left]

/-- `Push` with a missing local root and no deletion: zero statistics
and no effect. -/
theorem push_spec_absent_noDelete (env : PushEnv) (opts : PushOptions)
    (hroot : env.rootStat = RootStat.absent) (hdel : opts.delete = false) :
    push env opts = (Except.ok ⟨0, 0, 0, 0⟩, []) := by
  unfold push
  simp only [hroot, hdel, Bool.false_eq_true, if_false]

/-- `Pull` without deletion, when directory creation does not fail: the
download statistics, after the conditional `MkdirAll` and the download
trace. -/
theorem pull_spec_noDelete (env : PullEnv) (opts : PullOptions)
    (hdel : opts.delete = false)
    (hm : ¬(opts.dryRun = false ∧ env.mkdirOk = false)) :
    pull env opts =
      (Except.ok (pullWalkStats env opts env.objects),
        pullInitEffects opts ++ pullDownloadEffects env opts env.objects) := by
  unfold pull
  simp only [if_neg hm, hdel, pullStep_foldl, Bool.false_eq_true, if_false,
    pullStatsAdd_zero_left]

/-- `Pull` with deletion and a successful local walk: download
statistics plus deletion statistics, and the traces in program order. -/
theorem pull_spec_delete_walked (env : PullEnv) (opts : PullOptions)
    (files : List LocalFile) (hdel : opts.delete = true)
    (hm : ¬(opts.dryRun = false ∧ env.mkdirOk = false))
    (hw : env.walk = WalkRes.walked files) :
    pull env opts =
      (Except.ok (pullStatsAdd (pullWalkStats env opts env.objects)
          (pullDeleteStats opts env.removeOk (remoteKeySet env.objects)
            files)),
        pullInitEffects opts ++ pullDownloadEffects env opts env.objects ++
          pullDeleteEffects opts (remoteKeySet env.objects) files) := by
  unfold pull
  simp only [if_neg hm, hdel, hw, pullStep_foldl, pullDeleteStep_foldl,
    if_true, pullStatsAdd_zero_left, List.append_assoc]

/-- `Pull` with deletion over a missing local root: the walk error is
tolerated and only the download phase contributes. -/
theorem pull_spec_delete_notExist (env : PullEnv) (opts : PullOptions)
    (hdel : opts.delete = true)
    (hm : ¬(opts.dryRun = false ∧ env.mkdirOk = false))
    (hw : env.walk = WalkRes.notExist) :
    pull env opts =
      (Except.ok (pullWalkStats env opts env.objects),
        pullInitEffects opts ++ pullDownloadEffects env opts env.objects) := by
  unfold pull
  simp only [if_neg hm, hdel, hw, pullStep_foldl, if_true,
    pullStatsAdd_zero_left]

theorem mapGet_eq_zero_of_not_mem (m : List (String × S3Object))
    (k : String) (h : k ∉ targetKeys m) : mapGet m k = zeroS3Object := by
  induction m with
  | nil => rfl
  | cons kv rest ih =>
      simp only [targetKeys, List.map_cons, List.mem_cons] at h
      push_neg at h
      simp only [mapGet]
      rw [if_neg (fun he => h.1 (he.symm)), ih]
      intro hmem
      exact h.2 hmem

theorem mem_targetKeys_mapInsert (m : List (String × S3Object))
    (k k₂ : String) (v : S3Object) :
    k₂ ∈ targetKeys (mapInsert m k v) ↔ k₂ = k ∨ k₂ ∈ targetKeys m := by
  induction m with
  | nil => simp [mapInsert, targetKeys]
  | cons kv rest ih =>
      by_cases he : kv.1 = k
      · cases kv
        simp_all [mapInsert, targetKeys]
      · cases kv
        simp_all [mapInsert, targetKeys]
        tauto

theorem mem_targetKeys_buildRemoteFiles (objs : List S3Object)
    (k : String) :
    k ∈ targetKeys (buildRemoteFiles objs) ↔
      ∃ o ∈ objs, o.key = k ∧ strEndsWith o.key "/" = false := by
  have main : ∀ (l : List S3Object) (m : List (String × S3Object)),
      k ∈ targetKeys (l.foldl (fun m obj =>
          if strEndsWith obj.key "/" then m else mapInsert m obj.key obj) m) ↔
        k ∈ targetKeys m ∨
          ∃ o ∈ l, o.key = k ∧ strEndsWith o.key "/" = false := by
    intro l
    induction l with
    | nil => simp
    | cons o rest ih =>
        intro m
        by_cases hs : strEndsWith o.key "/" = true
        · simp [hs, ih]
        · simp only [List.foldl_cons, if_neg hs]
          rw [ih]
          simp [mem_targetKeys_mapInsert, hs]
          tauto
  rw [buildRemoteFiles, main]
  simp [targetKeys]

theorem mem_pushObserved (glob : String → String → Option Bool)
    (excl : List String) (walk : List LocalFile) (k : String) :
    k ∈ pushObserved glob excl walk ↔
      ∃ f ∈ walk, pushConsidered glob excl f = true ∧ f.s3Key = k := by
  simp [pushObserved, List.mem_map, List.mem_filter]
  tauto

theorem mem_pushDeleteEffects (opts : PushOptions) (keys : List String)
    (localFiles : List String) (k : String)
    (hdry : opts.dryRun = false) :
    Effect.deleteRemote k ∈ pushDeleteEffects opts keys localFiles ↔
      k ∈ keys ∧ k ∉ localFiles := by
  simp [pushDeleteEffects, hdry, deleteCandidates, List.mem_map,
    List.mem_filter]

theorem upload_not_mem_pushDeleteEffects (opts : PushOptions)
    (keys : List String) (localFiles : List String) (k : String) :
    Effect.upload k ∉ pushDeleteEffects opts keys localFiles := by
  simp [pushDeleteEffects, List.mem_map]

theorem deleteRemote_not_mem_pushUploadEffects (env : PushEnv)
    (opts : PushOptions) (rf : List (String × S3Object))
    (walk : List LocalFile) (k : String) :
    Effect.deleteRemote k ∉ pushUploadEffects env opts rf walk := by
  simp [pushUploadEffects, List.mem_map]

/-- C4: `shouldExclude` returns true if and only if at least one rule
matches the path under glob match (the `filepath.Match` collaborator
returning a match), directory-wildcard prefix match (rule ending in
slash-star, path starting with the rule minus that suffix followed by a
slash), or exact equality; a malformed glob (`none` from the matcher) is
a non-match for that rule and never aborts the evaluation of the
remaining interpretations and rules. -/
theorem shouldExclude_iff_matches (glob : String → String → Option Bool)
    (path : String) (patterns : List String) :
    shouldExclude glob path patterns = true ↔
      ∃ r ∈ patterns,
        glob r path = some true ∨
          (strEndsWith r "/*" = true ∧
            strStartsWith path (strDropRight r 2 ++ "/") = true) ∨
          path = r := by
  induction patterns with
  | nil => simp [shouldExclude]
  | cons r rest ih =>
      simp only [shouldExclude]
      by_cases h1 : glob r path = some true
      · rw [if_pos h1]
        exact iff_of_true rfl ⟨r, List.mem_cons_self r rest, Or.inl h1⟩
      · rw [if_neg h1]
        by_cases h2 :
            (strEndsWith r "/*" && strStartsWith path (strDropRight r 2 ++ "/")) = true
        · rw [if_pos h2]
          exact iff_of_true rfl ⟨r, List.mem_cons_self r rest,
            Or.inr (Or.inl (by simpa using h2))⟩
        · rw [if_neg h2]
          by_cases h3 : path = r
          · rw [if_pos h3]
            exact iff_of_true rfl ⟨r, List.mem_cons_self r rest,
              Or.inr (Or.inr h3)⟩
          · rw [if_neg h3, ih]
            rw [Bool.and_eq_true] at h2
            constructor
            · rintro ⟨x, hx, hm⟩
              exact ⟨x, List.mem_cons_of_mem r hx, hm⟩
            · rintro ⟨x, hx, hm⟩
              rcases List.mem_cons.mp hx with hxr | hxrest
              · subst hxr
                rcases hm with hg | hpre | hexact
                · exact absurd hg h1
                · exact absurd hpre h2
                · exact absurd hexact h3
              · exact ⟨x, hxrest, hm⟩

/-- C2: with equal sizes and an existing remote counterpart, the file is
selected for transfer exactly when the source modification time exceeds
the target modification time by strictly more than one second
(`10^9` nanoseconds), in both directions; in particular a source exactly
1000ms newer is not selected and one exactly 1001ms newer is. -/
theorem transfer_tolerance_boundary :
    (∀ (f : LocalFile) (obj : S3Object),
        obj.key ≠ "" → f.size = obj.size →
        ((needsUpload f obj).1 = true ↔
          obj.lastModified + 1000000000 < f.modTime)) ∧
    (∀ (obj : S3Object) (f : LocalFile),
        f.size = obj.size →
        ((needsDownload obj (StatRes.found f)).1 = true ↔
          f.modTime + 1000000000 < obj.lastModified)) ∧
    (∀ (f : LocalFile) (obj : S3Object),
        obj.key ≠ "" → f.size = obj.size →
        f.modTime = obj.lastModified + 1000000000 →
        (needsUpload f obj).1 = false) ∧
    (∀ (f : LocalFile) (obj : S3Object),
        obj.key ≠ "" → f.size = obj.size →
        f.modTime = obj.lastModified + 1001000000 →
        (needsUpload f obj).1 = true) ∧
    (∀ (obj : S3Object) (f : LocalFile),
        f.size = obj.size →
        obj.lastModified = f.modTime + 1000000000 →
        (needsDownload obj (StatRes.found f)).1 = false) ∧
    (∀ (obj : S3Object) (f : LocalFile),
        f.size = obj.size →
        obj.lastModified = f.modTime + 1001000000 →
        (needsDownload obj (StatRes.found f)).1 = true) := by
  have hup : ∀ (f : LocalFile) (obj : S3Object),
      obj.key ≠ "" → f.size = obj.size →
      ((needsUpload f obj).1 = true ↔
        obj.lastModified + 1000000000 < f.modTime) := by
    intro f obj hkey hsize
    simp only [needsUpload, hsize, if_neg hkey, ne_eq, not_true_eq_false,
      if_false]
    split
    · rename_i h
      simp_all
    · rename_i h
      simp_all
  have hdown : ∀ (obj : S3Object) (f : LocalFile),
      f.size = obj.size →
      ((needsDownload obj (StatRes.found f)).1 = true ↔
        f.modTime + 1000000000 < obj.lastModified) := by
    intro obj f hsize
    simp only [needsDownload, hsize, ne_eq, not_true_eq_false, if_false]
    split
    · rename_i h
      simp_all
    · rename_i h
      simp_all
  refine ⟨hup, hdown, ?_, ?_, ?_, ?_⟩
  · intro f obj hkey hsize hmod
    have hlt : ¬(obj.lastModified + 1000000000 < f.modTime) := by omega
    rcases h : (needsUpload f obj).1 with _ | _
    · rfl
    · exact absurd ((hup f obj hkey hsize).mp h) hlt
  · intro f obj hkey hsize hmod
    have hlt : obj.lastModified + 1000000000 < f.modTime := by omega
    exact (hup f obj hkey hsize).mpr hlt
  · intro obj f hsize hmod
    have hlt : ¬(f.modTime + 1000000000 < obj.lastModified) := by omega
    rcases h : (needsDownload obj (StatRes.found f)).1 with _ | _
    · rfl
    · exact absurd ((hdown obj f hsize).mp h) hlt
  · intro obj f hsize hmod
    have hlt : f.modTime + 1000000000 < obj.lastModified := by omega
    exact (hdown obj f hsize).mpr hlt

/-- Witness for C2: a source exactly 1000ms newer than its equal-size
target is not selected, one exactly 1001ms newer is, in both
directions. -/
theorem transfer_tolerance_boundary_witness :
    (needsUpload ⟨"a.txt", false, 10, 1000000000⟩
        ⟨"a.txt", 10, 0, "t"⟩).1 = false ∧
    (needsUpload ⟨"a.txt", false, 10, 1001000000⟩
        ⟨"a.txt", 10, 0, "t"⟩).1 = true ∧
    (needsDownload ⟨"a.txt", 10, 1000000000, "t"⟩
        (StatRes.found ⟨"a.txt", false, 10, 0⟩)).1 = false ∧
    (needsDownload ⟨"a.txt", 10, 1001000000, "t"⟩
        (StatRes.found ⟨"a.txt", false, 10, 0⟩)).1 = true :=
  ⟨transfer_tolerance_boundary.2.2.1 _ _ (by decide) rfl rfl,
    transfer_tolerance_boundary.2.2.2.1 _ _ (by decide) rfl rfl,
    transfer_tolerance_boundary.2.2.2.2.1 _ _ rfl rfl,
    transfer_tolerance_boundary.2.2.2.2.2 _ _ rfl rfl⟩

/-- C7, counterexample: at a concrete equal-size pair whose source is
newer beyond the tolerance, the reason produced by the code is
"local is newer" (push) and "remote is newer" (pull), not the
"source is newer" the claim states. -/
theorem newer_reason_counterexample :
    needsUpload ⟨"a.txt", false, 10, 2000000001⟩ ⟨"a.txt", 10, 0, "t"⟩ =
      (true, "local is newer") ∧
    needsDownload ⟨"a.txt", 10, 2000000001, "t"⟩
        (StatRes.found ⟨"a.txt", false, 10, 0⟩) =
      (true, "remote is newer") ∧
    "local is newer" ≠ "source is newer" ∧
    "remote is newer" ≠ "source is newer" := by
  refine ⟨by decide, by decide, by decide, by decide⟩

/-- C7 as amended: for every path with an equal-size counterpart whose
source modification time exceeds the target's by more than the
tolerance, the transfer entry carries the reason "local is newer" on
push and "remote is newer" on pull (the reasons per entry being
"new file", "size differs", and this direction-specific newer
reason, plus "stat error" on pull). -/
theorem newer_reason_amended :
    (∀ (f : LocalFile) (obj : S3Object),
        obj.key ≠ "" → f.size = obj.size →
        obj.lastModified + 1000000000 < f.modTime →
        needsUpload f obj = (true, "local is newer")) ∧
    (∀ (obj : S3Object) (f : LocalFile),
        f.size = obj.size →
        f.modTime + 1000000000 < obj.lastModified →
        needsDownload obj (StatRes.found f) = (true, "remote is newer")) := by
  constructor
  · intro f obj hkey hsize hmod
    simp only [needsUpload, hsize, if_neg hkey, ne_eq, not_true_eq_false,
      if_false, if_pos (decide_eq_true hmod)]
  · intro obj f hsize hmod
    simp only [needsDownload, hsize, ne_eq, not_true_eq_false, if_false,
      if_pos (decide_eq_true hmod)]

/-- Witness for the amended C7. -/
theorem newer_reason_amended_witness :
    needsUpload ⟨"b.txt", false, 7, 5000000000⟩ ⟨"b.txt", 7, 0, "t"⟩ =
      (true, "local is newer") ∧
    needsDownload ⟨"b.txt", 7, 5000000000, "t"⟩
        (StatRes.found ⟨"b.txt", false, 7, 0⟩) =
      (true, "remote is newer") :=
  ⟨newer_reason_amended.1 _ _ (by decide) rfl (by decide),
    newer_reason_amended.2 _ _ rfl (by decide)⟩

theorem mem_fst_pushToTransfer (glob : String → String → Option Bool)
    (excl : List String) (rf : List (String × S3Object))
    (walk : List LocalFile) (k : String) :
    k ∈ (pushToTransfer glob excl rf walk).map Prod.fst ↔
      ∃ f ∈ walk, pushConsidered glob excl f = true ∧
        pushNeeds rf f = true ∧ f.s3Key = k := by
  simp [pushToTransfer, pushUploadList, List.mem_map, List.mem_filter]
  tauto

theorem mem_pushToSkip (glob : String → String → Option Bool)
    (excl : List String) (rf : List (String × S3Object))
    (walk : List LocalFile) (k : String) :
    k ∈ pushToSkip glob excl rf walk ↔
      ∃ f ∈ walk, pushConsidered glob excl f = true ∧
        pushNeeds rf f = false ∧ f.s3Key = k := by
  simp [pushToSkip, List.mem_map, List.mem_filter]
  tauto

theorem pushConsidered_nil_excl (glob : String → String → Option Bool)
    (f : LocalFile) : pushConsidered glob [] f = !f.isDir := by
  simp [pushConsidered, shouldExclude]

/-- C1: with no exclusion rules and no delete sweep, the push diff
assigns every non-directory walk entry to exactly one of `toTransfer`
and `toSkip` (the two key sets are disjoint and their union is exactly
the considered source set), and every entry whose key has no counterpart
among the remote non-directory keys lands in `toTransfer` with reason
"new file". -/
theorem push_diff_partition_and_new_file
    (glob : String → String → Option Bool) (objs : List S3Object)
    (walk : List LocalFile)
    (hkeys : (walk.map LocalFile.s3Key).Nodup) :
    (∀ f ∈ walk, f.isDir = false →
      (f.s3Key ∈ (pushToTransfer glob [] (buildRemoteFiles objs) walk).map
          Prod.fst ↔
        f.s3Key ∉ pushToSkip glob [] (buildRemoteFiles objs) walk)) ∧
    (∀ k, (k ∈ (pushToTransfer glob [] (buildRemoteFiles objs) walk).map
          Prod.fst ∨
        k ∈ pushToSkip glob [] (buildRemoteFiles objs) walk) ↔
        ∃ f ∈ walk, f.isDir = false ∧ f.s3Key = k) ∧
    (∀ f ∈ walk, f.isDir = false →
      f.s3Key ∉ targetKeys (buildRemoteFiles objs) →
      (f.s3Key, "new file") ∈
        pushToTransfer glob [] (buildRemoteFiles objs) walk) := by
  have hinj : ∀ f₁ ∈ walk, ∀ f₂ ∈ walk, f₁.s3Key = f₂.s3Key → f₁ = f₂ :=
    fun f₁ h₁ f₂ h₂ he => List.inj_on_of_nodup_map hkeys h₁ h₂ he
  refine ⟨?_, ?_, ?_⟩
  · intro f hf hdir
    constructor
    · intro hT hS
      rcases (mem_fst_pushToTransfer glob [] _ walk f.s3Key).mp hT with
        ⟨g, hg, _, hgneeds, hgkey⟩
      rcases (mem_pushToSkip glob [] _ walk f.s3Key).mp hS with
        ⟨g₂, hg₂, _, hg₂needs, hg₂key⟩
      have : g = g₂ := hinj g hg g₂ hg₂ (hgkey.trans hg₂key.symm)
      rw [this, hg₂needs] at hgneeds
      exact Bool.false_ne_true hgneeds
    · intro hnS
      rcases hn : pushNeeds (buildRemoteFiles objs) f with _ | _
      · exact absurd ((mem_pushToSkip glob [] _ walk f.s3Key).mpr
          ⟨f, hf, by simp [pushConsidered_nil_excl, hdir], hn, rfl⟩) hnS
      · exact (mem_fst_pushToTransfer glob [] _ walk f.s3Key).mpr
          ⟨f, hf, by simp [pushConsidered_nil_excl, hdir], hn, rfl⟩
  · intro k
    constructor
    · intro h
      rcases h with hT | hS
      · rcases (mem_fst_pushToTransfer glob [] _ walk k).mp hT with
          ⟨g, hg, hgc, _, hgkey⟩
        rw [pushConsidered_nil_excl] at hgc
        exact ⟨g, hg, by simpa using hgc, hgkey⟩
      · rcases (mem_pushToSkip glob [] _ walk k).mp hS with
          ⟨g, hg, hgc, _, hgkey⟩
        rw [pushConsidered_nil_excl] at hgc
        exact ⟨g, hg, by simpa using hgc, hgkey⟩
    · rintro ⟨f, hf, hdir, hkey⟩
      rcases hn : pushNeeds (buildRemoteFiles objs) f with _ | _
      · exact Or.inr ((mem_pushToSkip glob [] _ walk k).mpr
          ⟨f, hf, by simp [pushConsidered_nil_excl, hdir], hn, hkey⟩)
      · exact Or.inl ((mem_fst_pushToTransfer glob [] _ walk k).mpr
          ⟨f, hf, by simp [pushConsidered_nil_excl, hdir], hn, hkey⟩)
  · intro f hf hdir habs
    have hzero : mapGet (buildRemoteFiles objs) f.s3Key = zeroS3Object :=
      mapGet_eq_zero_of_not_mem _ _ habs
    have hnew : needsUpload f (mapGet (buildRemoteFiles objs) f.s3Key) =
        (true, "new file") := by
      rw [hzero]
      simp [needsUpload, zeroS3Object]
    refine List.mem_map.mpr ⟨f, ?_, ?_⟩
    · refine List.mem_filter.mpr ⟨hf, ?_⟩
      simp [pushConsidered_nil_excl, hdir, pushNeeds, hnew]
    · rw [hnew]

/-- Witness for C1: a single local file against an empty remote listing
is assigned to `toTransfer` with reason "new file". -/
theorem push_diff_partition_and_new_file_witness :
    ("a.txt", "new file") ∈
      pushToTransfer (fun _ _ => none) [] (buildRemoteFiles [])
        [⟨"a.txt", false, 10, 0⟩] :=
  (push_diff_partition_and_new_file (fun _ _ => none) []
      [⟨"a.txt", false, 10, 0⟩] (by simp)).2.2
    ⟨"a.txt", false, 10, 0⟩ (by simp) rfl (by simp [targetKeys, buildRemoteFiles])

/-- `Pull` with deletion and a failing local walk: the run-level error,
after the download phase. -/
theorem pull_spec_delete_walkFailed (env : PullEnv) (opts : PullOptions)
    (hdel : opts.delete = true)
    (hm : ¬(opts.dryRun = false ∧ env.mkdirOk = false))
    (hw : env.walk = WalkRes.walkFailed) :
    pull env opts =
      (Except.error "failed to walk directory",
        pullInitEffects opts ++ pullDownloadEffects env opts env.objects) := by
  unfold pull
  simp only [if_neg hm, hdel, hw, pullStep_foldl, if_true,
    pullStatsAdd_zero_left]

/-- In dry-run, `Push` leaves no effect trace. -/
theorem push_dry_effects (env : PushEnv) (opts : PushOptions)
    (hdry : opts.dryRun = true) : (push env opts).2 = [] := by
  rcases hroot : env.rootStat with _ | _ | _
  · by_cases hdel : opts.delete = true
    · rw [push_spec_present_delete env opts hroot hdel]
      simp [pushUploadEffects, pushDeleteEffects, hdry]
    · rw [push_spec_present_noDelete env opts hroot
        (Bool.not_eq_true _ ▸ hdel)]
      simp [pushUploadEffects, hdry]
  · by_cases hdel : opts.delete = true
    · rw [push_spec_absent_delete env opts hroot hdel]
      simp [pushDeleteEffects, hdry]
    · rw [push_spec_absent_noDelete env opts hroot
        (Bool.not_eq_true _ ▸ hdel)]
  · unfold push
    simp [hroot]

/-- In dry-run, a successful `Push` reports zero statistics. -/
theorem push_dry_stats (env : PushEnv) (opts : PushOptions)
    (hdry : opts.dryRun = true) :
    ∀ stats, (push env opts).1 = Except.ok stats →
      stats = ⟨0, 0, 0, 0⟩ := by
  intro stats h
  rcases hroot : env.rootStat with _ | _ | _
  · by_cases hdel : opts.delete = true
    · rw [push_spec_present_delete env opts hroot hdel] at h
      simp only [Except.ok.injEq] at h
      rw [← h]
      simp [pushWalkStats, pushDeleteStats, statsAdd, hdry]
    · rw [push_spec_present_noDelete env opts hroot
        (Bool.not_eq_true _ ▸ hdel)] at h
      simp only [Except.ok.injEq] at h
      rw [← h]
      simp [pushWalkStats, hdry]
  · by_cases hdel : opts.delete = true
    · rw [push_spec_absent_delete env opts hroot hdel] at h
      simp only [Except.ok.injEq] at h
      rw [← h]
      simp [pushDeleteStats, hdry]
    · rw [push_spec_absent_noDelete env opts hroot
        (Bool.not_eq_true _ ▸ hdel)] at h
      simp only [Except.ok.injEq] at h
      exact h.symm
  · unfold push at h
    simp [hroot] at h

/-- In dry-run, `Pull` leaves no effect trace. -/
theorem pull_dry_effects (env : PullEnv) (opts : PullOptions)
    (hdry : opts.dryRun = true) : (pull env opts).2 = [] := by
  have hm : ¬(opts.dryRun = false ∧ env.mkdirOk = false) := by
    simp [hdry]
  by_cases hdel : opts.delete = true
  · rcases hw : env.walk with files | _ | _
    · rw [pull_spec_delete_walked env opts files hdel hm hw]
      simp [pullInitEffects, pullDownloadEffects, pullDeleteEffects, hdry]
    · rw [pull_spec_delete_notExist env opts hdel hm hw]
      simp [pullInitEffects, pullDownloadEffects, hdry]
    · rw [pull_spec_delete_walkFailed env opts hdel hm hw]
      simp [pullInitEffects, pullDownloadEffects, hdry]
  · rw [pull_spec_noDelete env opts (Bool.not_eq_true _ ▸ hdel) hm]
    simp [pullInitEffects, pullDownloadEffects, hdry]

/-- In dry-run, a successful `Pull` reports zero statistics. -/
theorem pull_dry_stats (env : PullEnv) (opts : PullOptions)
    (hdry : opts.dryRun = true) :
    ∀ stats, (pull env opts).1 = Except.ok stats →
      stats = ⟨0, 0, 0, 0⟩ := by
  intro stats h
  have hm : ¬(opts.dryRun = false ∧ env.mkdirOk = false) := by
    simp [hdry]
  by_cases hdel : opts.delete = true
  · rcases hw : env.walk with files | _ | _
    · rw [pull_spec_delete_walked env opts files hdel hm hw] at h
      simp only [Except.ok.injEq] at h
      rw [← h]
      simp [pullWalkStats, pullDeleteStats, pullStatsAdd, hdry]
    · rw [pull_spec_delete_notExist env opts hdel hm hw] at h
      simp only [Except.ok.injEq] at h
      rw [← h]
      simp [pullWalkStats, hdry]
    · rw [pull_spec_delete_walkFailed env opts hdel hm hw] at h
      simp at h
  · rw [pull_spec_noDelete env opts (Bool.not_eq_true _ ▸ hdel) hm] at h
    simp only [Except.ok.injEq] at h
    rw [← h]
    simp [pullWalkStats, hdry]

/-- C3: in a live push with deletion, an excluded key is never in the
observed-source set, and a remote non-directory key is deleted exactly
when it is not among the non-excluded local keys observed during the
run — so an excluded local file with a remote counterpart drives that
counterpart's deletion. -/
theorem push_delete_sweep_vs_exclusion (env : PushEnv) (opts : PushOptions)
    (hroot : env.rootStat = RootStat.present)
    (hdel : opts.delete = true) (hdry : opts.dryRun = false) :
    (∀ k, shouldExclude env.glob k opts.excludeGlobs = true →
        k ∉ pushObserved env.glob opts.excludeGlobs env.localWalk) ∧
    (∀ k, Effect.deleteRemote k ∈ (push env opts).2 ↔
        ((∃ o ∈ env.remoteObjects, o.key = k ∧ strEndsWith o.key "/" = false) ∧
          k ∉ pushObserved env.glob opts.excludeGlobs env.localWalk)) := by
  constructor
  · intro k hex hmem
    rcases (mem_pushObserved _ _ _ _).mp hmem with ⟨f, hf, hc, hkey⟩
    subst hkey
    simp [pushConsidered, hex] at hc
  · intro k
    rw [push_spec_present_delete env opts hroot hdel]
    simp only [List.mem_append]
    constructor
    · rintro (h | h)
      · exact absurd h (deleteRemote_not_mem_pushUploadEffects _ _ _ _ _)
      · have hh := (mem_pushDeleteEffects _ _ _ _ hdry).mp h
        exact ⟨(mem_targetKeys_buildRemoteFiles _ _).mp hh.1, hh.2⟩
    · rintro ⟨hex, hnot⟩
      exact Or.inr ((mem_pushDeleteEffects _ _ _ _ hdry).mpr
        ⟨(mem_targetKeys_buildRemoteFiles _ _).mpr hex, hnot⟩)

/-- Witness for C3: an excluded local file `x.txt` with a same-key
remote object leads to the remote object's deletion. -/
theorem push_delete_sweep_vs_exclusion_witness :
    Effect.deleteRemote "x.txt" ∈
      (push ⟨[⟨"x.txt", 5, 0, "t"⟩], RootStat.present,
          [⟨"x.txt", false, 5, 0⟩], fun _ => true, fun _ => true,
          fun _ _ => none⟩
        ⟨false, true, ["x.txt"]⟩).2 :=
  ((push_delete_sweep_vs_exclusion
      ⟨[⟨"x.txt", 5, 0, "t"⟩], RootStat.present,
        [⟨"x.txt", false, 5, 0⟩], fun _ => true, fun _ => true,
        fun _ _ => none⟩
      ⟨false, true, ["x.txt"]⟩ rfl rfl rfl).2 "x.txt").mpr
    ⟨⟨⟨"x.txt", 5, 0, "t"⟩, by simp, rfl, by decide⟩, by decide⟩

/-- C9: in a live push with deletion, every considered (non-directory,
non-excluded) walk entry is in the observed-source set whatever the
outcome of its upload, and hence a key whose upload fails is never
selected by the delete sweep. -/
theorem failed_upload_never_swept (env : PushEnv) (opts : PushOptions)
    (hroot : env.rootStat = RootStat.present)
    (hdel : opts.delete = true) (hdry : opts.dryRun = false) :
    (∀ f ∈ env.localWalk,
        pushConsidered env.glob opts.excludeGlobs f = true →
        f.s3Key ∈ pushObserved env.glob opts.excludeGlobs env.localWalk) ∧
    (∀ f ∈ env.localWalk,
        pushConsidered env.glob opts.excludeGlobs f = true →
        env.uploadOk f.s3Key = false →
        Effect.deleteRemote f.s3Key ∉ (push env opts).2) := by
  have hobs : ∀ f ∈ env.localWalk,
      pushConsidered env.glob opts.excludeGlobs f = true →
      f.s3Key ∈ pushObserved env.glob opts.excludeGlobs env.localWalk :=
    fun f hf hc => (mem_pushObserved _ _ _ _).mpr ⟨f, hf, hc, rfl⟩
  refine ⟨hobs, ?_⟩
  intro f hf hc hfail hmem
  rw [push_spec_present_delete env opts hroot hdel] at hmem
  rcases List.mem_append.mp hmem with h | h
  · exact deleteRemote_not_mem_pushUploadEffects _ _ _ _ _ h
  · exact ((mem_pushDeleteEffects _ _ _ _ hdry).mp h).2 (hobs f hf hc)

/-- Witness for C9: a local file whose upload fails is not deleted
remotely in the same run. -/
theorem failed_upload_never_swept_witness :
    Effect.deleteRemote "y.txt" ∉
      (push ⟨[⟨"y.txt", 9, 0, "t"⟩], RootStat.present,
          [⟨"y.txt", false, 4, 0⟩], fun _ => false, fun _ => true,
          fun _ _ => none⟩
        ⟨false, true, []⟩).2 :=
  (failed_upload_never_swept
      ⟨[⟨"y.txt", 9, 0, "t"⟩], RootStat.present,
        [⟨"y.txt", false, 4, 0⟩], fun _ => false, fun _ => true,
        fun _ _ => none⟩
      ⟨false, true, []⟩ rfl rfl rfl).2
    ⟨"y.txt", false, 4, 0⟩ (by simp) (by decide) rfl

/-- C8: a push whose local root is missing returns success with zero
statistics and no effect when deletion is not requested; with deletion
requested it still succeeds, performs no upload, and (live) deletes
exactly the non-directory remote keys under the prefix. -/
theorem push_missing_root (env : PushEnv) (opts : PushOptions)
    (hroot : env.rootStat = RootStat.absent) :
    (opts.delete = false → push env opts = (Except.ok ⟨0, 0, 0, 0⟩, [])) ∧
    (opts.delete = true →
      (∃ stats, (push env opts).1 = Except.ok stats) ∧
      (∀ k, Effect.upload k ∉ (push env opts).2) ∧
      (opts.dryRun = false →
        ∀ k, (Effect.deleteRemote k ∈ (push env opts).2 ↔
          ∃ o ∈ env.remoteObjects, o.key = k ∧
            strEndsWith o.key "/" = false))) := by
  constructor
  · intro hdel
    exact push_spec_absent_noDelete env opts hroot hdel
  · intro hdel
    refine ⟨⟨_, by rw [push_spec_absent_delete env opts hroot hdel]⟩,
      ?_, ?_⟩
    · intro k hk
      rw [push_spec_absent_delete env opts hroot hdel] at hk
      exact upload_not_mem_pushDeleteEffects _ _ _ _ hk
    · intro hdry k
      rw [push_spec_absent_delete env opts hroot hdel]
      simp only [mem_pushDeleteEffects _ _ _ _ hdry,
        mem_targetKeys_buildRemoteFiles, List.not_mem_nil,
        not_false_eq_true, and_true]

/-- Witness for C8: with a missing root and deletion requested, a
non-directory remote object is selected for deletion. -/
theorem push_missing_root_witness :
    Effect.deleteRemote "z.txt" ∈
      (push ⟨[⟨"z.txt", 2, 0, "t"⟩], RootStat.absent, [],
          fun _ => true, fun _ => true, fun _ _ => none⟩
        ⟨false, true, []⟩).2 :=
  (((push_missing_root
      ⟨[⟨"z.txt", 2, 0, "t"⟩], RootStat.absent, [],
        fun _ => true, fun _ => true, fun _ _ => none⟩
      ⟨false, true, []⟩ rfl).2 rfl).2.2 rfl "z.txt").mpr
    ⟨⟨"z.txt", 2, 0, "t"⟩, by simp, rfl, by decide⟩

/-- C6: in dry-run, neither push nor pull invokes any mutating
collaborator (the effect trace is empty — no upload, download, object
delete, local removal, or directory creation), and a successful run
reports zero transferred and zero deleted. -/
theorem dry_run_no_mutations :
    (∀ (env : PushEnv) (opts : PushOptions), opts.dryRun = true →
        (push env opts).2 = [] ∧
        ∀ stats, (push env opts).1 = Except.ok stats →
          stats.uploaded = 0 ∧ stats.deleted = 0) ∧
    (∀ (env : PullEnv) (opts : PullOptions), opts.dryRun = true →
        (pull env opts).2 = [] ∧
        ∀ stats, (pull env opts).1 = Except.ok stats →
          stats.downloaded = 0 ∧ stats.deleted = 0) := by
  constructor
  · intro env opts hdry
    refine ⟨push_dry_effects env opts hdry, ?_⟩
    intro stats h
    rw [push_dry_stats env opts hdry stats h]
    exact ⟨rfl, rfl⟩
  · intro env opts hdry
    refine ⟨pull_dry_effects env opts hdry, ?_⟩
    intro stats h
    rw [pull_dry_stats env opts hdry stats h]
    exact ⟨rfl, rfl⟩

/-- Witness for C6: a dry push over a pending upload and a pending
delete leaves an empty effect trace and zero counters. -/
theorem dry_run_no_mutations_witness :
    (push ⟨[⟨"stale.txt", 2, 0, "t"⟩], RootStat.present,
        [⟨"new.txt", false, 1, 0⟩], fun _ => true, fun _ => true,
        fun _ _ => none⟩
      ⟨true, true, []⟩).2 = [] ∧
    (⟨0, 0, 0, 0⟩ : PushStats).uploaded = 0 ∧
    (⟨0, 0, 0, 0⟩ : PushStats).deleted = 0 :=
  ⟨(dry_run_no_mutations.1
      ⟨[⟨"stale.txt", 2, 0, "t"⟩], RootStat.present,
        [⟨"new.txt", false, 1, 0⟩], fun _ => true, fun _ => true,
        fun _ _ => none⟩
      ⟨true, true, []⟩ rfl).1,
    (dry_run_no_mutations.1
      ⟨[⟨"stale.txt", 2, 0, "t"⟩], RootStat.present,
        [⟨"new.txt", false, 1, 0⟩], fun _ => true, fun _ => true,
        fun _ _ => none⟩
      ⟨true, true, []⟩ rfl).2 ⟨0, 0, 0, 0⟩ rfl⟩

/-- C10: a dry-run push or pull that returns without a run-level error
reports zero in all four counters — transferred, skipped, deleted and
failed alike. -/
theorem dry_run_all_counters_zero :
    (∀ (env : PushEnv) (opts : PushOptions), opts.dryRun = true →
        ∀ stats, (push env opts).1 = Except.ok stats →
          stats.uploaded = 0 ∧ stats.skipped = 0 ∧
            stats.deleted = 0 ∧ stats.failed = 0) ∧
    (∀ (env : PullEnv) (opts : PullOptions), opts.dryRun = true →
        ∀ stats, (pull env opts).1 = Except.ok stats →
          stats.downloaded = 0 ∧ stats.skipped = 0 ∧
            stats.deleted = 0 ∧ stats.failed = 0) := by
  constructor
  · intro env opts hdry stats h
    rw [push_dry_stats env opts hdry stats h]
    exact ⟨rfl, rfl, rfl, rfl⟩
  · intro env opts hdry stats h
    rw [pull_dry_stats env opts hdry stats h]
    exact ⟨rfl, rfl, rfl, rfl⟩

/-- Witness for C10: a dry pull over a pending download and a pending
local deletion reports all four counters zero. -/
theorem dry_run_all_counters_zero_witness :
    (⟨0, 0, 0, 0⟩ : PullStats).downloaded = 0 ∧
    (⟨0, 0, 0, 0⟩ : PullStats).skipped = 0 ∧
    (⟨0, 0, 0, 0⟩ : PullStats).deleted = 0 ∧
    (⟨0, 0, 0, 0⟩ : PullStats).failed = 0 :=
  dry_run_all_counters_zero.2
    ⟨[⟨"r.txt", 6, 0, "t"⟩], fun _ => StatRes.notExist, fun _ => true,
      fun _ => true, true, WalkRes.walked [⟨"old.txt", false, 1, 0⟩]⟩
    ⟨true, true⟩ rfl ⟨0, 0, 0, 0⟩ rfl

/-- C5: a live run returns its statistics without a run-level error
from any per-item failure; each failed transfer or delete contributes
exactly one to `failed`, and the other counters still account for every
remaining item. -/
theorem live_per_item_failure_tolerance :
    (∀ (env : PushEnv) (opts : PushOptions),
        opts.dryRun = false → env.rootStat = RootStat.present →
        opts.delete = true →
        (push env opts).1 = Except.ok
          ⟨((pushUploadList env.glob opts.excludeGlobs
                (buildRemoteFiles env.remoteObjects) env.localWalk).filter
              (fun f => env.uploadOk f.s3Key)).length,
            (pushToSkip env.glob opts.excludeGlobs
              (buildRemoteFiles env.remoteObjects) env.localWalk).length,
            ((deleteCandidates
                (targetKeys (buildRemoteFiles env.remoteObjects))
                (pushObserved env.glob opts.excludeGlobs
                  env.localWalk)).filter (fun k => env.deleteOk k)).length,
            ((pushUploadList env.glob opts.excludeGlobs
                (buildRemoteFiles env.remoteObjects) env.localWalk).filter
              (fun f => !env.uploadOk f.s3Key)).length +
              ((deleteCandidates
                  (targetKeys (buildRemoteFiles env.remoteObjects))
                  (pushObserved env.glob opts.excludeGlobs
                    env.localWalk)).filter
                (fun k => !env.deleteOk k)).length⟩) ∧
    (∀ (env : PullEnv) (opts : PullOptions) (files : List LocalFile),
        opts.dryRun = false → env.mkdirOk = true → opts.delete = true →
        env.walk = WalkRes.walked files →
        (pull env opts).1 = Except.ok
          ⟨((pullDownloadList env env.objects).filter
              (fun o => env.downloadOk o.key)).length,
            (env.objects.filter
              (fun o => pullConsidered o && !pullNeeds env o)).length,
            ((pullDeleteCandidates (remoteKeySet env.objects) files).filter
              (fun f => env.removeOk f.s3Key)).length,
            ((pullDownloadList env env.objects).filter
              (fun o => !env.downloadOk o.key)).length +
              ((pullDeleteCandidates (remoteKeySet env.objects)
                  files).filter
                (fun f => !env.removeOk f.s3Key)).length⟩) := by
  constructor
  · intro env opts hdry hroot hdel
    rw [push_spec_present_delete env opts hroot hdel]
    simp [pushWalkStats, pushDeleteStats, statsAdd, hdry]
  · intro env opts files hdry hmk hdel
    intro hw
    rw [pull_spec_delete_walked env opts files hdel
      (by simp [hmk]) hw]
    simp [pullWalkStats, pullDeleteStats, pullStatsAdd, hdry]

/-- Witness for C5: one failing upload and one failing remote delete
in the same live push yield `failed = 2`, no run-level error, and zero
in the other counters. -/
theorem live_per_item_failure_tolerance_witness :
    (push ⟨[⟨"gone.txt", 3, 0, "t"⟩], RootStat.present,
        [⟨"bad.txt", false, 4, 0⟩], fun _ => false, fun _ => false,
        fun _ _ => none⟩
      ⟨false, true, []⟩).1 = Except.ok ⟨0, 0, 0, 2⟩ := by
  rw [live_per_item_failure_tolerance.1
    ⟨[⟨"gone.txt", 3, 0, "t"⟩], RootStat.present,
      [⟨"bad.txt", false, 4, 0⟩], fun _ => false, fun _ => false,
      fun _ _ => none⟩
    ⟨false, true, []⟩ rfl rfl rfl]
  rfl

end AiplatformSync
